import Mathlib

/-!
Verification of the slate-pad infinite-canvas engine.

This file gives a shallow embedding of the numeric core of the repository:

* the JavaScript number semantics needed by the gesture code (finite values
  as rationals, plus NaN and the two infinities, with IEEE-style rules for
  the arithmetic, `Math.min` and `Math.max` used by the handlers);
* the `useCanvasInteraction` hook (pan, wheel zoom, pinch zoom, button zoom)
  as a state machine over events;
* the plain `InfiniteCanvas` component wheel/mouse handlers;
* the two-tier trailing-edge debouncer wrapped around `updateViewConfig`;
* `checkOverlap` / `findAvailablePosition` from `lib/node-placement.ts`
  (first revision: NODE_PADDING 40, GRID_SIZE 50, spiral 100 + 60 per turn,
  angle step pi/6, 50 attempts);
* the viewport culling filter of `NodeList.tsx`.

Real-valued library functions that cannot be represented exactly in an exact
model are abstracted: `Math.cos` / `Math.sin` on the spiral angles become
function parameters indexed by the angle step (the angle is always a multiple
of pi/6, and the reset test `angle >= 2 * Math.PI` triggers exactly at twelve
steps in exact arithmetic), and `Math.hypot` of the two touch points is
carried on the touch events as the nonnegative distance value it produces.
-/

namespace SlatePad

/-- Model of a JavaScript number as used by the canvas code: a finite value
(an exact rational), NaN, or a signed infinity (`inf true` is positive
infinity, `inf false` negative infinity). -/
inductive JSNum where
  | num : ℚ → JSNum
  | nan : JSNum
  | inf : Bool → JSNum
deriving DecidableEq, Repr

/-- IEEE-style negation. -/
def jsNeg : JSNum → JSNum
  | .num a => .num (-a)
  | .nan => .nan
  | .inf s => .inf (!s)

/-- IEEE-style addition (NaN propagates; opposite infinities give NaN). -/
def jsAdd : JSNum → JSNum → JSNum
  | .nan, _ => .nan
  | _, .nan => .nan
  | .inf s, .inf t => if s = t then .inf s else .nan
  | .inf s, .num _ => .inf s
  | .num _, .inf s => .inf s
  | .num a, .num b => .num (a + b)

/-- IEEE-style subtraction, defined as `x + (-y)` as in the standard. -/
def jsSub (a b : JSNum) : JSNum := jsAdd a (jsNeg b)

/-- IEEE-style multiplication (NaN propagates; infinity times zero is NaN). -/
def jsMul : JSNum → JSNum → JSNum
  | .nan, _ => .nan
  | _, .nan => .nan
  | .inf s, .inf t => .inf (s == t)
  | .inf s, .num b => if b = 0 then .nan else .inf (s == decide (0 < b))
  | .num a, .inf s => if a = 0 then .nan else .inf (s == decide (0 < a))
  | .num a, .num b => .num (a * b)

/-- IEEE-style division.  A nonzero finite value divided by zero gives a
signed infinity (rational zero models the JavaScript `+0`); `0 / 0` gives
NaN. -/
def jsDiv : JSNum → JSNum → JSNum
  | .nan, _ => .nan
  | _, .nan => .nan
  | .inf _, .inf _ => .nan
  | .inf s, .num b => .inf (s == decide (0 ≤ b))
  | .num _, .inf _ => .num 0
  | .num a, .num b =>
      if b = 0 then (if a = 0 then .nan else .inf (decide (0 < a)))
      else .num (a / b)

/-- Semantics of `Math.max` on two arguments: NaN if either argument is NaN,
otherwise the larger value. -/
def jsMax : JSNum → JSNum → JSNum
  | .nan, _ => .nan
  | _, .nan => .nan
  | .inf true, _ => .inf true
  | _, .inf true => .inf true
  | .inf false, b => b
  | a, .inf false => a
  | .num a, .num b => .num (max a b)

/-- Semantics of `Math.min` on two arguments: NaN if either argument is NaN,
otherwise the smaller value. -/
def jsMin : JSNum → JSNum → JSNum
  | .nan, _ => .nan
  | _, .nan => .nan
  | .inf false, _ => .inf false
  | _, .inf false => .inf false
  | .inf true, b => b
  | a, .inf true => a
  | .num a, .num b => .num (min a b)

/-- The scale clamp `Math.min(Math.max(x, 0.1), 5)` used by every zoom
handler. -/
def jsClamp (x : JSNum) : JSNum := jsMin (jsMax x (.num (1/10))) (.num 5)

@[simp] theorem jsNeg_num (a : ℚ) : jsNeg (.num a) = .num (-a) := rfl

@[simp] theorem jsAdd_num (a b : ℚ) : jsAdd (.num a) (.num b) = .num (a + b) := rfl

@[simp] theorem jsSub_num (a b : ℚ) : jsSub (.num a) (.num b) = .num (a - b) := by
  simp [jsSub, jsAdd, jsNeg, sub_eq_add_neg]

@[simp] theorem jsMul_num (a b : ℚ) : jsMul (.num a) (.num b) = .num (a * b) := rfl

theorem jsDiv_num {b : ℚ} (hb : b ≠ 0) (a : ℚ) :
    jsDiv (.num a) (.num b) = .num (a / b) := by
  simp [jsDiv, hb]

@[simp] theorem jsMax_num (a b : ℚ) : jsMax (.num a) (.num b) = .num (max a b) := rfl

@[simp] theorem jsMin_num (a b : ℚ) : jsMin (.num a) (.num b) = .num (min a b) := rfl

@[simp] theorem jsClamp_num (a : ℚ) :
    jsClamp (.num a) = .num (min (max a (1/10)) 5) := rfl

theorem clamp_mem (a : ℚ) : 1/10 ≤ min (max a (1/10)) 5 ∧ min (max a (1/10)) 5 ≤ 5 := by
  constructor
  · exact le_min (le_max_right a (1/10)) (by norm_num)
  · exact min_le_right _ _

/-- The `{ zoom, position }` record passed to `debouncedUpdateViewConfig` by
the `useCanvasInteraction` handlers. -/
structure JSViewConfig where
  zoom : JSNum
  posX : JSNum
  posY : JSNum
deriving DecidableEq, Repr

/-- State of the `useCanvasInteraction` hook (`hooks/useCanvasInteraction`):
the five `useState` cells of the hook together with the `scale` and
`position` state of the consuming component, to which the component applies
every `newScale` / `newPosition` the handlers return. -/
structure InteractionState where
  scale : JSNum
  posX : JSNum
  posY : JSNum
  isDragging : Bool
  dragStartX : JSNum
  dragStartY : JSNum
  initialPinchDistance : Option ℚ
  initialScale : JSNum
deriving DecidableEq, Repr

/-- Initial hook state: `useState(false)`, `useState({x:0,y:0})`,
`useState<number|null>(null)`, `useState(1)`, and the consumer's
`useState(1)` / `useState({x:0,y:0})` for scale and position. -/
def hookInit : InteractionState :=
  { scale := .num 1, posX := .num 0, posY := .num 0, isDragging := false,
    dragStartX := .num 0, dragStartY := .num 0,
    initialPinchDistance := none, initialScale := .num 1 }

/-- Input events consumed by the hook.  Touch events carry the client
coordinates of the (first two) touches and, for two-finger events, the value
`dist` of `calculateDistance(e.touches)`, i.e. the `Math.hypot` of the touch
deltas, supplied as data because a square root has no exact rational form;
it is nonnegative, and zero exactly when the two touches coincide.  Wheel
and button-zoom events carry the container rectangle data the handler reads,
plus whether `containerRef.current` is non-null. -/
inductive HookEvent where
  | wheel (clientX clientY deltaX deltaY : ℚ) (ctrlOrMeta : Bool)
      (rectLeft rectTop : ℚ) (hasContainer : Bool)
  | touchStartOne (clientX clientY : ℚ) (targetIsCanvas : Bool)
  | touchStartTwo (x0 y0 x1 y1 dist : ℚ)
  | touchMoveOne (clientX clientY : ℚ)
  | touchMoveTwo (x0 y0 x1 y1 dist : ℚ)
  | touchEnd
  | mouseDown (clientX clientY : ℚ) (button : ℕ) (targetIsCanvas : Bool)
  | mouseMove (clientX clientY : ℚ)
  | mouseUp
  | zoomIn (rectWidth rectHeight : ℚ) (hasContainer : Bool)
  | zoomOut (rectWidth rectHeight : ℚ) (hasContainer : Bool)

/-- One step of the hook: the handler for the event, with the returned
`InteractionResult` applied to the component state (as the consumer does via
`setScale` / `setPosition`).  The second component lists the configs passed
to `debouncedUpdateViewConfig` during the event, in call order. -/
def hookStep (s : InteractionState) : HookEvent → InteractionState × List JSViewConfig
  | .wheel clientX clientY _ deltaY true rectLeft rectTop hasContainer =>
      if hasContainer then
        let delta : ℚ := if deltaY > 0 then 9/10 else 11/10
        let newScale := jsClamp (jsMul s.scale (.num delta))
        let cursorX := clientX - rectLeft
        let cursorY := clientY - rectTop
        let worldX := jsDiv (jsSub (.num cursorX) s.posX) s.scale
        let worldY := jsDiv (jsSub (.num cursorY) s.posY) s.scale
        let newPosX := jsSub (.num cursorX) (jsMul worldX newScale)
        let newPosY := jsSub (.num cursorY) (jsMul worldY newScale)
        ({ s with scale := newScale, posX := newPosX, posY := newPosY },
         [⟨newScale, newPosX, newPosY⟩])
      else (s, [])
  | .wheel _ _ deltaX deltaY false _ _ _ =>
      let newPosX := jsSub s.posX (.num deltaX)
      let newPosY := jsSub s.posY (.num deltaY)
      ({ s with posX := newPosX, posY := newPosY }, [⟨s.scale, newPosX, newPosY⟩])
  | .touchStartOne clientX clientY targetIsCanvas =>
      if targetIsCanvas then
        ({ s with isDragging := true,
                  dragStartX := jsSub (.num clientX) s.posX,
                  dragStartY := jsSub (.num clientY) s.posY }, [])
      else (s, [])
  | .touchStartTwo _ _ _ _ dist =>
      ({ s with initialPinchDistance := some dist, initialScale := s.scale }, [])
  | .touchMoveOne clientX clientY =>
      if s.isDragging then
        ({ s with posX := jsSub (.num clientX) s.dragStartX,
                  posY := jsSub (.num clientY) s.dragStartY }, [])
      else (s, [])
  | .touchMoveTwo x0 y0 x1 y1 dist =>
      match s.initialPinchDistance with
      | some d0 =>
          let pinchRatio := jsDiv (.num dist) (.num d0)
          let newScale := jsClamp (jsMul s.initialScale pinchRatio)
          let centerX := (x0 + x1) / 2
          let centerY := (y0 + y1) / 2
          let worldX := jsDiv (jsSub (.num centerX) s.posX) s.scale
          let worldY := jsDiv (jsSub (.num centerY) s.posY) s.scale
          let newPosX := jsSub (.num centerX) (jsMul worldX newScale)
          let newPosY := jsSub (.num centerY) (jsMul worldY newScale)
          ({ s with scale := newScale, posX := newPosX, posY := newPosY }, [])
      | none => (s, [])
  | .touchEnd =>
      let s1 := { s with initialPinchDistance := none }
      let out1 : List JSViewConfig :=
        if s.initialPinchDistance.isSome then [⟨s.scale, s.posX, s.posY⟩] else []
      let s2 := { s1 with isDragging := false }
      let out2 : List JSViewConfig :=
        if s.isDragging then [⟨s.scale, s.posX, s.posY⟩] else []
      (s2, out1 ++ out2)
  | .mouseDown clientX clientY button targetIsCanvas =>
      if button = 0 ∧ targetIsCanvas then
        ({ s with isDragging := true,
                  dragStartX := jsSub (.num clientX) s.posX,
                  dragStartY := jsSub (.num clientY) s.posY }, [])
      else (s, [])
  | .mouseMove clientX clientY =>
      if s.isDragging then
        ({ s with posX := jsSub (.num clientX) s.dragStartX,
                  posY := jsSub (.num clientY) s.dragStartY }, [])
      else (s, [])
  | .mouseUp =>
      if s.isDragging then
        ({ s with isDragging := false }, [⟨s.scale, s.posX, s.posY⟩])
      else (s, [])
  | .zoomIn rectWidth rectHeight hasContainer =>
      if hasContainer then
        let newScale := jsMin (jsMul s.scale (.num (11/10))) (.num 5)
        let centerX := rectWidth / 2
        let centerY := rectHeight / 2
        let worldX := jsDiv (jsSub (.num centerX) s.posX) s.scale
        let worldY := jsDiv (jsSub (.num centerY) s.posY) s.scale
        let newPosX := jsSub (.num centerX) (jsMul worldX newScale)
        let newPosY := jsSub (.num centerY) (jsMul worldY newScale)
        ({ s with scale := newScale, posX := newPosX, posY := newPosY },
         [⟨newScale, newPosX, newPosY⟩])
      else (s, [])
  | .zoomOut rectWidth rectHeight hasContainer =>
      if hasContainer then
        let newScale := jsMax (jsMul s.scale (.num (9/10))) (.num (1/10))
        let centerX := rectWidth / 2
        let centerY := rectHeight / 2
        let worldX := jsDiv (jsSub (.num centerX) s.posX) s.scale
        let worldY := jsDiv (jsSub (.num centerY) s.posY) s.scale
        let newPosX := jsSub (.num centerX) (jsMul worldX newScale)
        let newPosY := jsSub (.num centerY) (jsMul worldY newScale)
        ({ s with scale := newScale, posX := newPosX, posY := newPosY },
         [⟨newScale, newPosX, newPosY⟩])
      else (s, [])

/-- The state after an event, discarding the debounced-update calls. -/
def hookNext (s : InteractionState) (e : HookEvent) : InteractionState :=
  (hookStep s e).1

/-- Run the hook over a list of events. -/
def hookRun (s : InteractionState) (es : List HookEvent) : InteractionState :=
  es.foldl hookNext s

/-- Is a JavaScript scale value a finite number within the clamp range
`[MIN_SCALE, MAX_SCALE] = [0.1, 5]`?  NaN and the infinities are not. -/
def scaleInRange : JSNum → Bool
  | .num q => decide (1/10 ≤ q) && decide (q ≤ 5)
  | _ => false

/-- The `screenToWorld` map of the specification, read off the component
state the hook maintains: `(p - translation) / scale`, on the x coordinate,
computed with JavaScript number semantics exactly as the handlers compute
their `worldX`. -/
def hookScreenToWorldX (s : InteractionState) (px : ℚ) : JSNum :=
  jsDiv (jsSub (.num px) s.posX) s.scale

/-- The y component of `screenToWorld` on the hook state. -/
def hookScreenToWorldY (s : InteractionState) (py : ℚ) : JSNum :=
  jsDiv (jsSub (.num py) s.posY) s.scale

/-- A trace event is free of the one unguarded division hazard: a two-finger
move while the recorded initial pinch distance is zero and the current
distance is also zero (the `0 / 0` that produces NaN).  Every other event is
always safe. -/
def safeEvent (s : InteractionState) : HookEvent → Bool
  | .touchMoveTwo _ _ _ _ dist =>
      !(decide (s.initialPinchDistance = some 0) && decide (dist = 0))
  | _ => true

/-- Every event of the trace is safe in the state at which it is handled. -/
def safeTrace : InteractionState → List HookEvent → Bool
  | _, [] => true
  | s, e :: es => safeEvent s e && safeTrace (hookNext s e) es

/-- The scale part of the state invariant: both the live scale and the scale
captured at pinch start are finite and within the clamp range. -/
def scaleInvB (s : InteractionState) : Bool :=
  scaleInRange s.scale && scaleInRange s.initialScale

theorem scaleInRange_iff (x : JSNum) :
    scaleInRange x = true ↔ ∃ q : ℚ, x = .num q ∧ 1/10 ≤ q ∧ q ≤ 5 := by
  cases x with
  | num q =>
      simp [scaleInRange]
  | nan => simp [scaleInRange]
  | inf s => simp [scaleInRange]

@[simp] theorem jsClamp_posInf : jsClamp (.inf true) = .num 5 := rfl

@[simp] theorem jsClamp_negInf : jsClamp (.inf false) = .num (1/10) := by
  show JSNum.num (min (1/10) 5) = JSNum.num (1/10)
  norm_num

theorem scaleInRange_clamp (x : ℚ) : scaleInRange (jsClamp (.num x)) = true := by
  rcases clamp_mem x with ⟨h1, h2⟩
  simp [scaleInRange, h1, h2]
  norm_num

/-- The pinch update `clamp(initialScale * (dist / d0))` stays a finite value
in the clamp range for every pair of distances except the `0 / 0` case,
whenever the captured initial scale is itself in range. -/
theorem pinch_scale_in_range {q : ℚ} (h1 : 1/10 ≤ q) (d0 dist : ℚ)
    (h : ¬(d0 = 0 ∧ dist = 0)) :
    scaleInRange (jsClamp (jsMul (.num q) (jsDiv (.num dist) (.num d0)))) = true := by
  have hq0 : q ≠ 0 := by positivity
  by_cases hd0 : d0 = 0
  · have hdist : dist ≠ 0 := fun hd => h ⟨hd0, hd⟩
    subst hd0
    rcases lt_or_gt_of_ne hdist with hneg | hpos
    · have : jsDiv (.num dist) (.num 0) = .inf false := by
        simp [jsDiv, hdist, not_lt.mpr hneg.le, hneg.not_lt]
      rw [this]
      have : jsMul (.num q) (.inf false) = .inf false := by
        simp [jsMul, hq0, decide_eq_true (by linarith : (0:ℚ) < q)]
      rw [this, jsClamp_negInf]
      norm_num [scaleInRange]
    · have : jsDiv (.num dist) (.num 0) = .inf true := by
        simp [jsDiv, hdist, hpos]
      rw [this]
      have : jsMul (.num q) (.inf true) = .inf true := by
        simp [jsMul, hq0, decide_eq_true (by linarith : (0:ℚ) < q)]
      rw [this, jsClamp_posInf]
      norm_num [scaleInRange]
  · rw [jsDiv_num hd0, jsMul_num]
    exact scaleInRange_clamp _

theorem scaleInRange_zoomIn {q : ℚ} (h1 : 1/10 ≤ q) (h5 : q ≤ 5) :
    scaleInRange (jsMin (jsMul (.num q) (.num (11/10))) (.num 5)) = true := by
  rw [jsMul_num, jsMin_num]
  have hlo : 1/10 ≤ min (q * (11/10)) 5 := le_min (by linarith) (by norm_num)
  have hhi : min (q * (11/10)) 5 ≤ 5 := min_le_right _ _
  simp only [scaleInRange, Bool.and_eq_true, decide_eq_true_eq]
  exact ⟨hlo, hhi⟩

theorem scaleInRange_zoomOut {q : ℚ} (h1 : 1/10 ≤ q) (h5 : q ≤ 5) :
    scaleInRange (jsMax (jsMul (.num q) (.num (9/10))) (.num (1/10))) = true := by
  rw [jsMul_num, jsMax_num]
  have hlo : 1/10 ≤ max (q * (9/10)) (1/10) := le_max_right _ _
  have hhi : max (q * (9/10)) (1/10) ≤ 5 := max_le (by linarith) (by norm_num)
  simp only [scaleInRange, Bool.and_eq_true, decide_eq_true_eq]
  exact ⟨hlo, hhi⟩

/-- One step of the hook preserves the scale invariant, provided the event
avoids the single `0 / 0` hazard. -/
theorem scaleInv_step (s : InteractionState) (e : HookEvent)
    (hs : scaleInvB s = true) (he : safeEvent s e = true) :
    scaleInvB (hookNext s e) = true := by
  rw [scaleInvB, Bool.and_eq_true] at hs
  obtain ⟨hsc, hsi⟩ := hs
  rcases (scaleInRange_iff _).mp hsc with ⟨q, hq, hq1, hq5⟩
  rcases (scaleInRange_iff _).mp hsi with ⟨r, hr, hr1, hr5⟩
  cases e with
  | wheel clientX clientY deltaX deltaY ctrl rectLeft rectTop hasContainer =>
      cases ctrl with
      | true =>
          by_cases hc : hasContainer = true
          · subst hc
            simp only [hookNext, hookStep, if_true]
            simp only [scaleInvB, Bool.and_eq_true]
            refine ⟨?_, hsi⟩
            rw [hq, jsMul_num]
            exact scaleInRange_clamp _
          · simp only [Bool.not_eq_true] at hc
            subst hc
            simp only [hookNext, hookStep, if_false, Bool.false_eq_true]
            simp [scaleInvB, hsc, hsi]
      | false =>
          simp [hookNext, hookStep, scaleInvB, hsc, hsi]
  | touchStartOne clientX clientY targetIsCanvas =>
      by_cases ht : targetIsCanvas = true <;>
        simp [hookNext, hookStep, ht, scaleInvB, hsc, hsi]
  | touchStartTwo x0 y0 x1 y1 dist =>
      simp [hookNext, hookStep, scaleInvB, hsc, hsi]
  | touchMoveOne clientX clientY =>
      by_cases hd : s.isDragging = true <;>
        simp [hookNext, hookStep, hd, scaleInvB, hsc, hsi]
  | touchMoveTwo x0 y0 x1 y1 dist =>
      cases hpd : s.initialPinchDistance with
      | none => simp [hookNext, hookStep, hpd, scaleInvB, hsc, hsi]
      | some d0 =>
          have hsafe : ¬(d0 = 0 ∧ dist = 0) := by
            rintro ⟨h0, hdz⟩
            subst h0
            subst hdz
            simp [safeEvent, hpd] at he
          simp only [hookNext, hookStep, hpd]
          simp only [scaleInvB, Bool.and_eq_true]
          refine ⟨?_, hsi⟩
          rw [hr]
          exact pinch_scale_in_range hr1 d0 dist hsafe
  | touchEnd =>
      simp [hookNext, hookStep, scaleInvB, hsc, hsi]
  | mouseDown clientX clientY button targetIsCanvas =>
      by_cases hb : button = 0 ∧ targetIsCanvas = true <;>
        simp [hookNext, hookStep, hb, scaleInvB, hsc, hsi]
  | mouseMove clientX clientY =>
      by_cases hd : s.isDragging = true <;>
        simp [hookNext, hookStep, hd, scaleInvB, hsc, hsi]
  | mouseUp =>
      by_cases hd : s.isDragging = true <;>
        simp [hookNext, hookStep, hd, scaleInvB, hsc, hsi]
  | zoomIn rectWidth rectHeight hasContainer =>
      by_cases hc : hasContainer = true
      · subst hc
        simp only [hookNext, hookStep, if_true]
        simp only [scaleInvB, Bool.and_eq_true]
        refine ⟨?_, hsi⟩
        rw [hq]
        exact scaleInRange_zoomIn hq1 hq5
      · simp only [Bool.not_eq_true] at hc
        subst hc
        simp [hookNext, hookStep, scaleInvB, hsc, hsi]
  | zoomOut rectWidth rectHeight hasContainer =>
      by_cases hc : hasContainer = true
      · subst hc
        simp only [hookNext, hookStep, if_true]
        simp only [scaleInvB, Bool.and_eq_true]
        refine ⟨?_, hsi⟩
        rw [hq]
        exact scaleInRange_zoomOut hq1 hq5
      · simp only [Bool.not_eq_true] at hc
        subst hc
        simp [hookNext, hookStep, scaleInvB, hsc, hsi]

/-- The scale invariant is preserved along any safe trace. -/
theorem scaleInv_run : ∀ (es : List HookEvent) (s : InteractionState),
    scaleInvB s = true → safeTrace s es = true → scaleInvB (hookRun s es) = true := by
  intro es
  induction es with
  | nil => intro s hs _; simpa [hookRun] using hs
  | cons e es ih =>
      intro s hs htr
      rw [safeTrace, Bool.and_eq_true] at htr
      have : hookRun s (e :: es) = hookRun (hookNext s e) es := rfl
      rw [this]
      exact ih _ (scaleInv_step s e hs htr.1) htr.2

/-- State of the plain `components/Canvas/InfiniteCanvas.tsx` component
(the version whose wheel-zoom handler only calls `setScale`): its `scale`,
`position`, `isDragging` and `dragStart` state cells.  All arithmetic the
embedded handlers perform stays within finite values, so plain rationals
suffice here. -/
structure CanvasComponentState where
  scale : ℚ
  posX : ℚ
  posY : ℚ
  isDragging : Bool
  dragStartX : ℚ
  dragStartY : ℚ
deriving DecidableEq, Repr

/-- The `handleWheel` of `components/Canvas/InfiniteCanvas.tsx`: with
ctrl/meta it clamps `scale * (deltaY > 0 ? 0.9 : 1.1)` and sets only the
scale, leaving the position untouched; without a modifier it pans by the
wheel deltas. -/
def canvasHandleWheel (s : CanvasComponentState) (deltaX deltaY : ℚ)
    (ctrlOrMeta : Bool) : CanvasComponentState :=
  if ctrlOrMeta then
    let delta : ℚ := if deltaY > 0 then 9/10 else 11/10
    let newScale := min (max (s.scale * delta) (1/10)) 5
    { s with scale := newScale }
  else
    { s with posX := s.posX - deltaX, posY := s.posY - deltaY }

/-- The `handleMouseDown` of `components/Canvas/InfiniteCanvas.tsx`. -/
def canvasHandleMouseDown (s : CanvasComponentState) (clientX clientY : ℚ)
    (button : ℕ) (ctrlOrMeta : Bool) : CanvasComponentState :=
  if button = 0 ∧ ¬ctrlOrMeta then
    { s with isDragging := true,
             dragStartX := clientX - s.posX, dragStartY := clientY - s.posY }
  else s

/-- The `handleMouseMove` of `components/Canvas/InfiniteCanvas.tsx`: while
dragging it sets only the position from the cursor and the drag start. -/
def canvasHandleMouseMove (s : CanvasComponentState) (clientX clientY : ℚ) :
    CanvasComponentState :=
  if s.isDragging then
    { s with posX := clientX - s.dragStartX, posY := clientY - s.dragStartY }
  else s

/-- Modelled from the spec, section 4.1: `screenToWorld(p) =
(p - translation) / scale`.  The component itself has no named
`screenToWorld` function; this is the measuring instrument the anchor
preservation property is stated with. -/
def canvasScreenToWorldX (s : CanvasComponentState) (px : ℚ) : ℚ :=
  (px - s.posX) / s.scale

/-- The y component of the spec's `screenToWorld` on the component state. -/
def canvasScreenToWorldY (s : CanvasComponentState) (py : ℚ) : ℚ :=
  (py - s.posY) / s.scale

/-- The two-tier debounce of `debouncedUpdateViewConfig`: each invocation
clears both pending timers and schedules anew.  Given the invocations as a
time-ordered list of `(time, config)` pairs, `firesAfter delay` returns the
callbacks that actually fire for a tier with the given delay: the timer set
at time `t` is cleared exactly when the next invocation arrives strictly
before `t + delay`, and otherwise fires at `t + delay` with its config. -/
def firesAfter (delay : ℚ) {α : Type} : List (ℚ × α) → List (ℚ × α)
  | [] => []
  | (t, c) :: rest =>
      match rest with
      | [] => [(t + delay, c)]
      | (t2, _) :: _ =>
          if t2 < t + delay then firesAfter delay rest
          else (t + delay, c) :: firesAfter delay rest

/-- Every invocation of the trace arrives strictly sooner than `delay` after
the previous one. -/
def gapsOk (delay : ℚ) {α : Type} : List (ℚ × α) → Bool
  | [] => true
  | [_] => true
  | (t, _) :: (t2, c2) :: rest =>
      decide (t2 < t + delay) && gapsOk delay ((t2, c2) :: rest)

/-- A view config with plain rational fields, as persisted by
`updateViewConfig` in the standalone `InfiniteCanvas` components. -/
structure QViewConfig where
  zoom : ℚ
  posX : ℚ
  posY : ℚ
deriving DecidableEq, Repr

/-- The `handleTouchEnd` of the standalone `InfiniteCanvas` component
(part_007): the list of configs it passes to `debouncedUpdateViewConfig`,
one for a just-finished pinch and one for a just-finished drag, each with
the current `scale` and `position`. -/
def part007TouchEnd (initialPinchDistance : Option ℚ) (isDragging : Bool)
    (zoom posX posY : ℚ) : List QViewConfig :=
  (if initialPinchDistance.isSome then [⟨zoom, posX, posY⟩] else []) ++
  (if isDragging then [⟨zoom, posX, posY⟩] else [])

/-- When every invocation arrives within the quiet window of the previous
one, only the very last timer survives: the tier fires exactly once, one
delay after the last invocation, with the last config. -/
theorem firesAfter_coalesce (delay : ℚ) {α : Type} :
    ∀ (l : List (ℚ × α)) (tc : ℚ × α), gapsOk delay l = true →
      l.getLast? = some tc → firesAfter delay l = [(tc.1 + delay, tc.2)] := by
  intro l
  induction l with
  | nil => intro tc _ h; simp at h
  | cons a rest ih =>
      intro tc hg hl
      cases rest with
      | nil =>
          simp only [List.getLast?_singleton, Option.some.injEq] at hl
          subst hl
          rfl
      | cons b rest2 =>
          have hgap : b.1 < a.1 + delay := by
            rw [gapsOk, Bool.and_eq_true, decide_eq_true_eq] at hg
            exact hg.1
          have hg2 : gapsOk delay (b :: rest2) = true := by
            rw [gapsOk, Bool.and_eq_true] at hg
            exact hg.2
          have hl2 : (b :: rest2).getLast? = some tc := by
            rwa [List.getLast?_cons_cons] at hl
          rw [firesAfter]
          simp only [hgap, if_true]
          exact ih tc hg2 hl2

/-- A 2D position in world coordinates (`lib/node-placement.ts`). -/
structure Pos where
  x : ℚ
  y : ℚ
deriving DecidableEq, Repr

/-- Node dimensions in world units. -/
structure Dim where
  width : ℚ
  height : ℚ
deriving DecidableEq, Repr

/-- An existing node as the placement engine sees it after the
string-or-object parse: a position and dimensions. -/
structure PNode where
  pos : Pos
  dim : Dim
deriving DecidableEq, Repr

/-- A rectangle `{x, y, width, height}`; used both for the viewport passed
to the placement engine and for the culling bounds. -/
structure Viewport where
  x : ℚ
  y : ℚ
  width : ℚ
  height : ℚ
deriving DecidableEq, Repr

/-- `checkOverlap` of `lib/node-placement.ts`: the candidate rectangle A is
expanded by `NODE_PADDING = 40` on all sides and then tested for strict
axis-aligned intersection against the unpadded rectangle B. -/
def checkOverlap (posA : Pos) (dimA : Dim) (posB : Pos) (dimB : Dim) : Bool :=
  let paddedPosAx := posA.x - 40
  let paddedPosAy := posA.y - 40
  let paddedDimAw := dimA.width + 40 * 2
  let paddedDimAh := dimA.height + 40 * 2
  decide (paddedPosAx < posB.x + dimB.width) &&
  decide (paddedPosAx + paddedDimAw > posB.x) &&
  decide (paddedPosAy < posB.y + dimB.height) &&
  decide (paddedPosAy + paddedDimAh > posB.y)

/-- The `hasCollision` closure of `findAvailablePosition`: does the
candidate at `(x, y)` overlap (padded test) any existing node? -/
def hasCollision (nodes : List PNode) (dims : Dim) (x y : ℚ) : Bool :=
  nodes.any fun n => checkOverlap ⟨x, y⟩ dims n.pos n.dim

/-- The spiral loop of `findAvailablePosition`.  `cosQ k` and `sinQ k` stand
for `Math.cos` / `Math.sin` of the angle `k * pi / 6`: the angle always is a
multiple of the 30-degree increment, and in exact arithmetic the reset test
`angle >= 2 * Math.PI` triggers exactly when twelve increments have
accumulated, so the loop state is the angle index `k < 12` and the radius
(initially `SPIRAL_INITIAL_RADIUS = 100`, stepped by
`SPIRAL_RADIUS_INCREMENT = 60` per full turn), bounded by `maxAttempts =
50`. -/
def spiralLoop (cosQ sinQ : ℕ → ℚ) (nodes : List PNode) (dims : Dim)
    (v : Viewport) (cx cy : ℚ) : ℕ → ℕ → ℚ → Option Pos
  | 0, _, _ => none
  | fuel + 1, k, radius =>
      let x := cx + radius * cosQ k
      let y := cy + radius * sinQ k
      let isInViewport :=
        decide (x ≥ v.x + 40) &&
        decide (x + dims.width ≤ v.x + v.width - 40) &&
        decide (y ≥ v.y + 40) &&
        decide (y + dims.height ≤ v.y + v.height - 40)
      if isInViewport && !hasCollision nodes dims x y then some ⟨x, y⟩
      else if 12 ≤ k + 1 then
        spiralLoop cosQ sinQ nodes dims v cx cy fuel 0 (radius + 60)
      else spiralLoop cosQ sinQ nodes dims v cx cy fuel (k + 1) radius

/-- The grid fallback of `findAvailablePosition`: scan cells of
`GRID_SIZE = 50` covering the viewport in row-major order and return the
origin of the first collision-free cell. -/
def gridScan (nodes : List PNode) (dims : Dim) (v : Viewport) : Option Pos :=
  (List.range (Int.ceil (v.height / 50)).toNat).findSome? fun row =>
    (List.range (Int.ceil (v.width / 50)).toNat).findSome? fun col =>
      let x := v.x + col * 50
      let y := v.y + row * 50
      if hasCollision nodes dims x y then none else some ⟨x, y⟩

/-- `findAvailablePosition` of `lib/node-placement.ts`: origin-centered
placement on an empty canvas or missing viewport, then viewport center,
then the spiral search, then the grid fallback, then the
`viewport origin + NODE_PADDING` ultimate fallback. -/
def findAvailablePosition (cosQ sinQ : ℕ → ℚ) (nodes : List PNode)
    (dims : Dim) (viewport : Option Viewport) : Pos :=
  match viewport with
  | none => ⟨-dims.width / 2, -dims.height / 2⟩
  | some v =>
      if nodes.isEmpty then ⟨-dims.width / 2, -dims.height / 2⟩
      else
        let centerX := v.x + v.width / 2 - dims.width / 2
        let centerY := v.y + v.height / 2 - dims.height / 2
        if !hasCollision nodes dims centerX centerY then ⟨centerX, centerY⟩
        else
          match spiralLoop cosQ sinQ nodes dims v centerX centerY 50 0 100 with
          | some p => p
          | none =>
              match gridScan nodes dims v with
              | some p => p
              | none => ⟨v.x + 40, v.y + 40⟩

/-- The `visibleNodes` filter of `NodeList.tsx`: keep the nodes whose
rectangle passes the four strict comparisons against the viewport bounds
expanded by `width * 0.5` horizontally and `height * 0.5` vertically. -/
def visibleNodes (nodes : List PNode) (vb : Viewport) : List PNode :=
  nodes.filter fun n =>
    let paddingX := vb.width * (1/2)
    let paddingY := vb.height * (1/2)
    decide (n.pos.x < vb.x + vb.width + paddingX) &&
    decide (n.pos.x + n.dim.width > vb.x - paddingX) &&
    decide (n.pos.y < vb.y + vb.height + paddingY) &&
    decide (n.pos.y + n.dim.height > vb.y - paddingY)

/-- Modelled from the spec, section 4.5: the viewport bounds expanded by the
padding factor one half on each side (half the width to the left and right,
half the height above and below). -/
def paddedBounds (vb : Viewport) : Viewport :=
  ⟨vb.x - vb.width * (1/2), vb.y - vb.height * (1/2), vb.width * 2, vb.height * 2⟩

/-- The axis-aligned rectangle a node occupies in world coordinates. -/
def nodeRect (n : PNode) : Viewport :=
  ⟨n.pos.x, n.pos.y, n.dim.width, n.dim.height⟩

/-- A point lies strictly inside a rectangle. -/
def strictlyInside (px py : ℚ) (r : Viewport) : Prop :=
  r.x < px ∧ px < r.x + r.width ∧ r.y < py ∧ py < r.y + r.height

theorem interval_overlap {a b c d : ℚ} (hab : a < b) (hcd : c < d) :
    (∃ z : ℚ, a < z ∧ z < b ∧ c < z ∧ z < d) ↔ a < d ∧ c < b := by
  constructor
  · rintro ⟨z, h1, h2, h3, h4⟩
    exact ⟨lt_trans h1 h4, lt_trans h3 h2⟩
  · rintro ⟨had, hcb⟩
    have hmm : max a c < min b d := by
      rw [max_lt_iff]
      exact ⟨lt_min hab had, lt_min hcb hcd⟩
    rcases exists_between hmm with ⟨z, hz1, hz2⟩
    exact ⟨z, lt_of_le_of_lt (le_max_left a c) hz1,
      lt_of_lt_of_le hz2 (min_le_left b d),
      lt_of_le_of_lt (le_max_right a c) hz1,
      lt_of_lt_of_le hz2 (min_le_right b d)⟩

theorem findSome?_mem {α β : Type} {f : α → Option β} :
    ∀ {l : List α} {b : β}, l.findSome? f = some b → ∃ a ∈ l, f a = some b := by
  intro l
  induction l with
  | nil => intro b h; simp [List.findSome?] at h
  | cons a rest ih =>
      intro b h
      rw [List.findSome?] at h
      cases hfa : f a with
      | some c =>
          rw [hfa] at h
          exact ⟨a, List.mem_cons_self a rest, hfa.trans h⟩
      | none =>
          rw [hfa] at h
          rcases ih h with ⟨a2, ha2, hfa2⟩
          exact ⟨a2, List.mem_cons_of_mem a ha2, hfa2⟩

/-- Every position the spiral loop accepts is collision-free (and inside the
shrunk viewport). -/
theorem spiralLoop_no_collision (cosQ sinQ : ℕ → ℚ) (nodes : List PNode)
    (dims : Dim) (v : Viewport) (cx cy : ℚ) :
    ∀ (fuel k : ℕ) (radius : ℚ) (p : Pos),
      spiralLoop cosQ sinQ nodes dims v cx cy fuel k radius = some p →
      hasCollision nodes dims p.x p.y = false := by
  intro fuel
  induction fuel with
  | zero => intro k radius p h; simp [spiralLoop] at h
  | succ fuel ih =>
      intro k radius p h
      rw [spiralLoop] at h
      split at h
      · rename_i hacc
        rw [Bool.and_eq_true, Bool.not_eq_true'] at hacc
        cases h
        exact hacc.2
      · split at h
        · exact ih 0 (radius + 60) p h
        · exact ih (k + 1) radius p h

/-- Every position the grid fallback returns is collision-free. -/
theorem gridScan_no_collision (nodes : List PNode) (dims : Dim) (v : Viewport)
    (p : Pos) (h : gridScan nodes dims v = some p) :
    hasCollision nodes dims p.x p.y = false := by
  rcases findSome?_mem h with ⟨row, _, hrow⟩
  rcases findSome?_mem hrow with ⟨col, _, hcol⟩
  by_cases hc : hasCollision nodes dims (v.x + col * 50) (v.y + row * 50) = true
  · simp [hc] at hcol
  · rw [Bool.not_eq_true] at hc
    simp only [hc, Bool.false_eq_true, if_false] at hcol
    cases hcol
    exact hc

/-- Core algebra of anchored zooming: writing the new translation as
`anchor - (anchor - translation) / scale * newScale` leaves
`screenToWorld(anchor)` unchanged, for any two nonzero scales. -/
theorem jsAnchor {q q2 : ℚ} (hq : q ≠ 0) (hq2 : q2 ≠ 0) (cx px : ℚ) :
    jsDiv (jsSub (.num cx)
        (jsSub (.num cx) (jsMul (jsDiv (jsSub (.num cx) (.num px)) (.num q)) (.num q2))))
      (.num q2) = jsDiv (jsSub (.num cx) (.num px)) (.num q) := by
  simp only [jsSub_num, jsDiv_num hq, jsMul_num, jsSub_num, jsDiv_num hq2]
  congr 1
  field_simp
  ring

theorem clamp_ne_zero (x : ℚ) : min (max x (1/10)) 5 ≠ 0 := by
  have := (clamp_mem x).1
  intro h
  rw [h] at this
  norm_num at this

/-- C1 (amended).  For the `useCanvasInteraction` handlers, every zoom
operation that takes an anchor screen point preserves the world point under
the anchor: the ctrl/meta wheel zoom anchored at the cursor, and the button
zoomIn / zoomOut anchored at the viewport center, all leave
`screenToWorld(anchor)` unchanged whenever the current scale is a finite
value in `[0.1, 5]` and the translation is finite.  (The claim as frozen
also covers the wheel handler of `components/Canvas/InfiniteCanvas.tsx`,
which does not adjust the translation; see the counterexample.) -/
theorem c1_zoom_anchor_preservation
    (s : InteractionState) (q px py : ℚ)
    (hsc : s.scale = .num q) (h1 : 1/10 ≤ q) (h5 : q ≤ 5)
    (hpx : s.posX = .num px) (hpy : s.posY = .num py)
    (clientX clientY deltaX deltaY rectLeft rectTop rectW rectH : ℚ) :
    (hookScreenToWorldX
        (hookNext s (.wheel clientX clientY deltaX deltaY true rectLeft rectTop true))
        (clientX - rectLeft) = hookScreenToWorldX s (clientX - rectLeft) ∧
     hookScreenToWorldY
        (hookNext s (.wheel clientX clientY deltaX deltaY true rectLeft rectTop true))
        (clientY - rectTop) = hookScreenToWorldY s (clientY - rectTop)) ∧
    (hookScreenToWorldX (hookNext s (.zoomIn rectW rectH true)) (rectW / 2)
        = hookScreenToWorldX s (rectW / 2) ∧
     hookScreenToWorldY (hookNext s (.zoomIn rectW rectH true)) (rectH / 2)
        = hookScreenToWorldY s (rectH / 2)) ∧
    (hookScreenToWorldX (hookNext s (.zoomOut rectW rectH true)) (rectW / 2)
        = hookScreenToWorldX s (rectW / 2) ∧
     hookScreenToWorldY (hookNext s (.zoomOut rectW rectH true)) (rectH / 2)
        = hookScreenToWorldY s (rectH / 2)) := by
  have hq0 : q ≠ 0 := by positivity
  have hqpos : 0 < q := by linarith
  have hwheel : ∀ d : ℚ, min (max (q * d) (1/10)) 5 ≠ 0 := fun d => clamp_ne_zero (q * d)
  have hin : min (q * (11/10)) 5 ≠ 0 := by
    have : 0 < min (q * (11/10)) 5 := lt_min (by positivity) (by norm_num)
    exact ne_of_gt this
  have hout : max (q * (9/10)) (1/10) ≠ 0 := by
    have : (0:ℚ) < max (q * (9/10)) (1/10) :=
      lt_of_lt_of_le (by norm_num) (le_max_right _ _)
    exact ne_of_gt this
  refine ⟨⟨?_, ?_⟩, ⟨?_, ?_⟩, ⟨?_, ?_⟩⟩
  · simp only [hookNext, hookStep, if_true, hookScreenToWorldX, hsc, hpx,
      jsMul_num, jsClamp_num]
    exact jsAnchor hq0 (hwheel _) _ _
  · simp only [hookNext, hookStep, if_true, hookScreenToWorldY, hsc, hpy,
      jsMul_num, jsClamp_num]
    exact jsAnchor hq0 (hwheel _) _ _
  · simp only [hookNext, hookStep, if_true, hookScreenToWorldX, hsc, hpx,
      jsMul_num, jsMin_num]
    exact jsAnchor hq0 hin _ _
  · simp only [hookNext, hookStep, if_true, hookScreenToWorldY, hsc, hpy,
      jsMul_num, jsMin_num]
    exact jsAnchor hq0 hin _ _
  · simp only [hookNext, hookStep, if_true, hookScreenToWorldX, hsc, hpx,
      jsMul_num, jsMax_num]
    exact jsAnchor hq0 hout _ _
  · simp only [hookNext, hookStep, if_true, hookScreenToWorldY, hsc, hpy,
      jsMul_num, jsMax_num]
    exact jsAnchor hq0 hout _ _

/-- C1 counterexample.  The wheel handler of
`components/Canvas/InfiniteCanvas.tsx` (cited by the claim) rescales while
leaving the translation fixed: zooming in with the cursor at screen point
100 from the identity transform moves the world point under the cursor, so
the claim as frozen is false on that handler. -/
theorem c1_counterexample :
    canvasScreenToWorldX
        (canvasHandleWheel ⟨1, 0, 0, false, 0, 0⟩ 0 (-1) true) 100 ≠
      canvasScreenToWorldX ⟨1, 0, 0, false, 0, 0⟩ 100 := by
  norm_num [canvasHandleWheel, canvasScreenToWorldX]

/-- Witness for C1: the amended theorem applied at the initial hook state
with a concrete wheel-zoom, zoom-in and zoom-out event. -/
theorem c1_witness :
    (hookScreenToWorldX
        (hookNext hookInit (.wheel 100 80 0 (-3) true 0 0 true)) (100 - 0)
        = hookScreenToWorldX hookInit (100 - 0) ∧
     hookScreenToWorldY
        (hookNext hookInit (.wheel 100 80 0 (-3) true 0 0 true)) (80 - 0)
        = hookScreenToWorldY hookInit (80 - 0)) ∧
    (hookScreenToWorldX (hookNext hookInit (.zoomIn 800 600 true)) (800 / 2)
        = hookScreenToWorldX hookInit (800 / 2) ∧
     hookScreenToWorldY (hookNext hookInit (.zoomIn 800 600 true)) (600 / 2)
        = hookScreenToWorldY hookInit (600 / 2)) ∧
    (hookScreenToWorldX (hookNext hookInit (.zoomOut 800 600 true)) (800 / 2)
        = hookScreenToWorldX hookInit (800 / 2) ∧
     hookScreenToWorldY (hookNext hookInit (.zoomOut 800 600 true)) (600 / 2)
        = hookScreenToWorldY hookInit (600 / 2)) :=
  c1_zoom_anchor_preservation hookInit 1 0 0 rfl (by norm_num) (by norm_num)
    rfl rfl 100 80 0 (-3) 0 0 800 600

/-- C2 (amended).  Starting from any state whose scale (and captured pinch
start scale) is a finite value in `[0.1, 5]`, any finite sequence of wheel,
pinch and button zoom events leaves the scale a finite value in
`[0.1, 5]` — provided no two-finger move divides zero by zero, i.e. no such
move happens while the recorded initial pinch distance is zero with the
current distance also zero (the excluded trace is exactly the
counterexample). -/
theorem c2_scale_clamp_invariant (s : InteractionState) (es : List HookEvent)
    (hs : scaleInvB s = true) (htr : safeTrace s es = true) :
    scaleInRange (hookRun s es).scale = true := by
  have h := scaleInv_run es s hs htr
  rw [scaleInvB, Bool.and_eq_true] at h
  exact h.1

/-- C2 counterexample.  From the initial state (scale 1, inside `[0.1, 5]`),
the two-event sequence "two-finger start with coincident touches, two-finger
move with coincident touches" drives the scale out of `[0.1, 5]`: the pinch
ratio is `0 / 0 = NaN` and the clamp of NaN is NaN. -/
theorem c2_counterexample :
    scaleInRange (hookRun hookInit
      [.touchStartTwo 0 0 0 0 0, .touchMoveTwo 0 0 0 0 0]).scale = false := by
  norm_num [hookRun, hookNext, hookStep, hookInit, List.foldl, jsDiv, jsMul,
    jsClamp, jsMin, jsMax, scaleInRange]

/-- Witness for C2: the amended theorem applied at the initial state to a
concrete safe trace mixing wheel zoom, a pinch with nonzero initial
distance, and the two zoom buttons. -/
theorem c2_witness :
    scaleInvB hookInit = true ∧
    safeTrace hookInit
      [.wheel 100 80 0 (-3) true 0 0 true, .touchStartTwo 10 10 20 20 14,
       .touchMoveTwo 10 10 30 30 28, .touchEnd, .zoomIn 800 600 true,
       .zoomOut 800 600 true] = true ∧
    scaleInRange (hookRun hookInit
      [.wheel 100 80 0 (-3) true 0 0 true, .touchStartTwo 10 10 20 20 14,
       .touchMoveTwo 10 10 30 30 28, .touchEnd, .zoomIn 800 600 true,
       .zoomOut 800 600 true]).scale = true := by
  refine ⟨by norm_num [scaleInvB, hookInit, scaleInRange], ?_, ?_⟩
  · norm_num [safeTrace, safeEvent, hookNext, hookStep, hookInit, jsDiv,
      jsMul, jsClamp, jsMin, jsMax, jsSub, jsAdd, jsNeg]
  · exact c2_scale_clamp_invariant hookInit _
      (by norm_num [scaleInvB, hookInit, scaleInRange])
      (by norm_num [safeTrace, safeEvent, hookNext, hookStep, hookInit, jsDiv,
        jsMul, jsClamp, jsMin, jsMax, jsSub, jsAdd, jsNeg])

/-- C3: evaluation of the code at the failing input.  A pinch start with
both touches at the same point records `initialPinchDistance = 0`; a
following two-finger move with coincident touches computes
`pinchRatio = 0 / 0 = NaN` and `Math.min(Math.max(NaN, 0.1), 5) = NaN`, so
the scale becomes NaN — there is no `d0 == 0` guard and the ratio is not
treated as `1`, contradicting the claim. -/
theorem c3_pinch_zero_distance_nan :
    (hookRun hookInit
      [.touchStartTwo 100 100 100 100 0,
       .touchMoveTwo 100 100 100 100 0]).scale = JSNum.nan := by
  norm_num [hookRun, hookNext, hookStep, hookInit, List.foldl, jsDiv, jsMul,
    jsClamp, jsMin, jsMax]

/-- C10.  A pointer-move or a single-touch move changes at most the
translation: the scale (and every other non-position field) of the hook
state is unchanged, and likewise for the `handleMouseMove` of
`components/Canvas/InfiniteCanvas.tsx`.  This holds whether or not a pan is
active (when idle the handlers change nothing at all). -/
theorem c10_pan_moves_only_translation :
    ∀ (s : InteractionState) (x y : ℚ) (cs : CanvasComponentState),
      (hookNext s (.mouseMove x y)).scale = s.scale ∧
      (hookNext s (.mouseMove x y)).isDragging = s.isDragging ∧
      (hookNext s (.mouseMove x y)).dragStartX = s.dragStartX ∧
      (hookNext s (.mouseMove x y)).dragStartY = s.dragStartY ∧
      (hookNext s (.mouseMove x y)).initialPinchDistance = s.initialPinchDistance ∧
      (hookNext s (.mouseMove x y)).initialScale = s.initialScale ∧
      (hookNext s (.touchMoveOne x y)).scale = s.scale ∧
      (hookNext s (.touchMoveOne x y)).isDragging = s.isDragging ∧
      (hookNext s (.touchMoveOne x y)).dragStartX = s.dragStartX ∧
      (hookNext s (.touchMoveOne x y)).dragStartY = s.dragStartY ∧
      (hookNext s (.touchMoveOne x y)).initialPinchDistance = s.initialPinchDistance ∧
      (hookNext s (.touchMoveOne x y)).initialScale = s.initialScale ∧
      (canvasHandleMouseMove cs x y).scale = cs.scale ∧
      (canvasHandleMouseMove cs x y).isDragging = cs.isDragging ∧
      (canvasHandleMouseMove cs x y).dragStartX = cs.dragStartX ∧
      (canvasHandleMouseMove cs x y).dragStartY = cs.dragStartY := by
  intro s x y cs
  by_cases hd : s.isDragging = true <;> by_cases hc : cs.isDragging = true <;>
    simp [hookNext, hookStep, canvasHandleMouseMove, hd, hc]

/-- C5 (amended).  On an empty canvas `findAvailablePosition` ignores the
viewport and returns `(-width/2, -height/2)`, the node centered on the world
origin; for the claim's inputs (dimensions 200 by 100, viewport 0 0 800 600)
this is `(-100, -50)`, not the viewport-center placement `(300, 250)`. -/
theorem c5_empty_canvas_placement :
    ∀ (cosQ sinQ : ℕ → ℚ) (dims : Dim) (viewport : Option Viewport),
      (findAvailablePosition cosQ sinQ [] dims viewport
        = ⟨-dims.width / 2, -dims.height / 2⟩) ∧
      findAvailablePosition cosQ sinQ [] ⟨200, 100⟩ (some ⟨0, 0, 800, 600⟩)
        = ⟨-100, -50⟩ := by
  intro cosQ sinQ dims viewport
  constructor
  · cases viewport with
    | none => rfl
    | some v => simp [findAvailablePosition]
  · norm_num [findAvailablePosition]

/-- C5 counterexample.  At the claim's concrete scenario the engine does not
return `(300, 250)`. -/
theorem c5_counterexample :
    findAvailablePosition (fun _ => 1) (fun _ => 0) [] ⟨200, 100⟩
      (some ⟨0, 0, 800, 600⟩) ≠ ⟨300, 250⟩ := by
  norm_num [findAvailablePosition, Pos.mk.injEq]

/-- C9.  `findAvailablePosition` is deterministic: equal node lists, equal
dimensions and equal viewports give equal results — every stage of the
fallback chain is a pure function of the arguments. -/
theorem c9_placement_deterministic (cosQ sinQ : ℕ → ℚ)
    (nodes1 nodes2 : List PNode) (dims1 dims2 : Dim)
    (vp1 vp2 : Option Viewport)
    (hn : nodes1 = nodes2) (hd : dims1 = dims2) (hv : vp1 = vp2) :
    findAvailablePosition cosQ sinQ nodes1 dims1 vp1
      = findAvailablePosition cosQ sinQ nodes2 dims2 vp2 := by
  subst hn
  subst hd
  subst hv
  rfl

/-- Witness for C9: the determinism theorem applied at a concrete input. -/
theorem c9_witness :
    findAvailablePosition (fun _ => 1) (fun _ => 0) [⟨⟨0, 0⟩, ⟨10, 10⟩⟩]
        ⟨20, 20⟩ (some ⟨0, 0, 300, 300⟩)
      = findAvailablePosition (fun _ => 1) (fun _ => 0) [⟨⟨0, 0⟩, ⟨10, 10⟩⟩]
        ⟨20, 20⟩ (some ⟨0, 0, 300, 300⟩) :=
  c9_placement_deterministic (fun _ => 1) (fun _ => 0) _ _ _ _ _ _ rfl rfl rfl

theorem hasCollision_eq_false_iff (nodes : List PNode) (dims : Dim) (x y : ℚ) :
    hasCollision nodes dims x y = false ↔
      ∀ n ∈ nodes, checkOverlap ⟨x, y⟩ dims n.pos n.dim = false := by
  rw [hasCollision, List.any_eq_false]
  constructor
  · intro h n hn
    exact Bool.not_eq_true _ |>.mp (h n hn)
  · intro h n hn
    exact Bool.not_eq_true _ |>.mpr (h n hn)

/-- C4.  With at least one existing node and sufficient free viewport space
(formalized: some cell of the grid fallback covering the viewport is
collision-free), the position returned by `findAvailablePosition`, expanded
by `NODE_PADDING` on all sides, intersects no existing node's unpadded
rectangle: every stage that can return before the ultimate fallback checks
`hasCollision`, and the grid hypothesis rules the ultimate fallback out. -/
theorem c4_placement_non_overlap (cosQ sinQ : ℕ → ℚ) (nodes : List PNode)
    (dims : Dim) (v : Viewport) (hne : nodes ≠ [])
    (hfree : gridScan nodes dims v ≠ none) :
    ∀ n ∈ nodes,
      checkOverlap (findAvailablePosition cosQ sinQ nodes dims (some v))
        dims n.pos n.dim = false := by
  have hne2 : nodes.isEmpty = false := by
    cases nodes with
    | nil => exact absurd rfl hne
    | cons a l => rfl
  have key : hasCollision nodes dims
      (findAvailablePosition cosQ sinQ nodes dims (some v)).x
      (findAvailablePosition cosQ sinQ nodes dims (some v)).y = false := by
    rw [findAvailablePosition]
    simp only [hne2, Bool.false_eq_true, if_false]
    split
    · rename_i hcc
      rw [Bool.not_eq_true'] at hcc
      exact hcc
    · split
      · rename_i p hp
        exact spiralLoop_no_collision cosQ sinQ nodes dims v _ _ 50 0 100 p hp
      · rename_i hsp
        split
        · rename_i p hp
          exact gridScan_no_collision nodes dims v p hp
        · rename_i hg
          exact absurd hg hfree
  exact (hasCollision_eq_false_iff nodes dims _ _).mp key

/-- Witness for C4: a canvas with one node far from the viewport, where the
grid fallback has a free cell; the theorem yields that the returned
placement does not collide with that node. -/
theorem c4_witness :
    ([⟨⟨90, 90⟩, ⟨10, 10⟩⟩] : List PNode) ≠ [] ∧
    gridScan [⟨⟨90, 90⟩, ⟨10, 10⟩⟩] ⟨10, 10⟩ ⟨0, 0, 30, 30⟩ ≠ none ∧
    checkOverlap
      (findAvailablePosition (fun _ => 0) (fun _ => 0)
        [⟨⟨90, 90⟩, ⟨10, 10⟩⟩] ⟨10, 10⟩ (some ⟨0, 0, 30, 30⟩))
      ⟨10, 10⟩ ⟨90, 90⟩ ⟨10, 10⟩ = false := by
  have hceil : (⌈(30:ℚ) / 50⌉ : ℤ) = 1 := by
    rw [Int.ceil_eq_iff]
    norm_num
  have hrange : List.range (⌈(30:ℚ) / 50⌉ : ℤ).toNat = [0] := by
    rw [hceil]
    simp [List.range_succ]
  have hfree : gridScan [⟨⟨90, 90⟩, ⟨10, 10⟩⟩] ⟨10, 10⟩ ⟨0, 0, 30, 30⟩ ≠ none := by
    rw [gridScan]
    dsimp only
    rw [hrange]
    norm_num [List.findSome?, hasCollision, checkOverlap]
    exact Option.some_ne_none _
  refine ⟨by simp, hfree, ?_⟩
  exact c4_placement_non_overlap (fun _ => 0) (fun _ => 0) _ ⟨10, 10⟩ ⟨0, 0, 30, 30⟩
    (by simp) hfree ⟨⟨90, 90⟩, ⟨10, 10⟩⟩ (by simp)

/-- C7.  If every transform change arrives strictly sooner than the 1.5 s
remote-tier quiet window after the previous one, the remote tier fires
exactly once, 1.5 s after the last change, carrying the last config. -/
theorem c7_debounce_coalescing (l : List (ℚ × QViewConfig))
    (tc : ℚ × QViewConfig) (hg : gapsOk 1500 l = true)
    (hl : l.getLast? = some tc) :
    firesAfter 1500 l = [(tc.1 + 1500, tc.2)] :=
  firesAfter_coalesce 1500 l tc hg hl

/-- Witness for C7: three changes 1 s apart coalesce into the single persist
of the last config, 1.5 s after it. -/
theorem c7_witness :
    gapsOk 1500
      [((0:ℚ), QViewConfig.mk 1 0 0), (1000, ⟨2, 5, 5⟩), (2000, ⟨3, 7, 9⟩)] = true ∧
    [((0:ℚ), QViewConfig.mk 1 0 0), (1000, ⟨2, 5, 5⟩),
      (2000, ⟨3, 7, 9⟩)].getLast? = some (2000, ⟨3, 7, 9⟩) ∧
    firesAfter 1500
      [((0:ℚ), QViewConfig.mk 1 0 0), (1000, ⟨2, 5, 5⟩), (2000, ⟨3, 7, 9⟩)]
      = [((2000:ℚ) + 1500, ⟨3, 7, 9⟩)] := by
  refine ⟨by norm_num [gapsOk], by simp, ?_⟩
  exact c7_debounce_coalescing _ (2000, ⟨3, 7, 9⟩) (by norm_num [gapsOk]) (by simp)

/-- C6 counterexample.  A transform change is pending (scheduled at time 0)
and the gesture ends at time 100: the touch-end handler passes the current
config to the debounced updater rather than persisting directly, and
neither tier fires at time 100 — the remote tier fires at 1600 and the
local tier at 250.  Nothing is persisted immediately at gesture end, so the
claim as frozen is false. -/
theorem c6_counterexample :
    part007TouchEnd (some 50) false 2 30 40 = [⟨2, 30, 40⟩] ∧
    firesAfter 1500 [((0:ℚ), QViewConfig.mk 9 1 1), (100, ⟨2, 30, 40⟩)]
      = [(1600, ⟨2, 30, 40⟩)] ∧
    firesAfter 150 [((0:ℚ), QViewConfig.mk 9 1 1), (100, ⟨2, 30, 40⟩)]
      = [(250, ⟨2, 30, 40⟩)] := by
  refine ⟨rfl, ?_, ?_⟩ <;> norm_num [firesAfter]

/-- C6 (amended).  When a gesture ends with a change pending, the handlers
re-invoke the debounced updater with the current transform; this cancels the
outstanding timers and schedules persistence anew, so (when no further
change follows) exactly one persist fires, 1.5 s after the gesture end,
carrying the gesture-end config — the pending change's latest value is not
lost, but nothing is persisted immediately. -/
theorem c6_gesture_end_persistence (l0 : List (ℚ × QViewConfig))
    (tEnd zoom posX posY d0 : ℚ)
    (hg : gapsOk 1500 (l0 ++ [(tEnd, ⟨zoom, posX, posY⟩)]) = true) :
    part007TouchEnd (some d0) false zoom posX posY = [⟨zoom, posX, posY⟩] ∧
    firesAfter 1500 (l0 ++ [(tEnd, ⟨zoom, posX, posY⟩)])
      = [(tEnd + 1500, ⟨zoom, posX, posY⟩)] := by
  refine ⟨rfl, ?_⟩
  exact firesAfter_coalesce 1500 _ (tEnd, ⟨zoom, posX, posY⟩) hg
    (by rw [List.getLast?_concat])

/-- Witness for C6: the amended theorem at a concrete pending change
followed by a gesture end. -/
theorem c6_witness :
    part007TouchEnd (some 50) false 2 30 40 = [⟨2, 30, 40⟩] ∧
    firesAfter 1500 [((0:ℚ), QViewConfig.mk 9 1 1), (100, ⟨2, 30, 40⟩)]
      = [((100:ℚ) + 1500, ⟨2, 30, 40⟩)] :=
  c6_gesture_end_persistence [((0:ℚ), QViewConfig.mk 9 1 1)] 100 2 30 40 50
    (by norm_num [gapsOk])

/-- C8.  For nodes and viewports of positive extent, the culling filter of
`NodeList.tsx` keeps exactly the nodes whose rectangle intersects (shares a
point with the interior of) the viewport bounds expanded by half the
viewport width on each side horizontally and half the viewport height on
each side vertically: a node entirely outside the padded bounds is dropped,
a node overlapping them by any positive amount is kept. -/
theorem c8_culling_exact (nodes : List PNode) (vb : Viewport) (n : PNode)
    (hw : 0 < n.dim.width) (hh : 0 < n.dim.height)
    (hvw : 0 < vb.width) (hvh : 0 < vb.height) :
    n ∈ visibleNodes nodes vb ↔
      n ∈ nodes ∧ ∃ px py : ℚ,
        strictlyInside px py (nodeRect n) ∧
        strictlyInside px py (paddedBounds vb) := by
  rw [visibleNodes, List.mem_filter]
  simp only [Bool.and_eq_true, decide_eq_true_eq, gt_iff_lt]
  constructor
  · rintro ⟨hn, ⟨⟨⟨h1, h2⟩, h3⟩, h4⟩⟩
    refine ⟨hn, ?_⟩
    have hx := (interval_overlap
        (show n.pos.x < n.pos.x + n.dim.width by linarith)
        (show vb.x - vb.width * (1/2) < vb.x - vb.width * (1/2) + vb.width * 2 by
          linarith)).mpr ⟨by linarith, by linarith⟩
    have hy := (interval_overlap
        (show n.pos.y < n.pos.y + n.dim.height by linarith)
        (show vb.y - vb.height * (1/2) < vb.y - vb.height * (1/2) + vb.height * 2 by
          linarith)).mpr ⟨by linarith, by linarith⟩
    obtain ⟨px, hx1, hx2, hx3, hx4⟩ := hx
    obtain ⟨py, hy1, hy2, hy3, hy4⟩ := hy
    exact ⟨px, py, ⟨hx1, hx2, hy1, hy2⟩, ⟨hx3, hx4, hy3, hy4⟩⟩
  · rintro ⟨hn, px, py, ⟨ha1, ha2, ha3, ha4⟩, ⟨hb1, hb2, hb3, hb4⟩⟩
    simp only [nodeRect, paddedBounds] at ha1 ha2 ha3 ha4 hb1 hb2 hb3 hb4
    exact ⟨hn, ⟨⟨⟨by linarith, by linarith⟩, by linarith⟩, by linarith⟩⟩

/-- Witness for C8: the theorem at a concrete node and viewport of positive
extent. -/
theorem c8_witness :
    (0:ℚ) < (Dim.mk 10 10).width ∧ (0:ℚ) < (Viewport.mk 0 0 100 100).width ∧
    ((⟨⟨120, 30⟩, ⟨10, 10⟩⟩ : PNode) ∈
        visibleNodes [⟨⟨120, 30⟩, ⟨10, 10⟩⟩] ⟨0, 0, 100, 100⟩ ↔
      (⟨⟨120, 30⟩, ⟨10, 10⟩⟩ : PNode) ∈ ([⟨⟨120, 30⟩, ⟨10, 10⟩⟩] : List PNode) ∧
      ∃ px py : ℚ,
        strictlyInside px py (nodeRect ⟨⟨120, 30⟩, ⟨10, 10⟩⟩) ∧
        strictlyInside px py (paddedBounds ⟨0, 0, 100, 100⟩)) := by
  refine ⟨by norm_num, by norm_num, ?_⟩
  exact c8_culling_exact [⟨⟨120, 30⟩, ⟨10, 10⟩⟩] ⟨0, 0, 100, 100⟩
    ⟨⟨120, 30⟩, ⟨10, 10⟩⟩ (by norm_num) (by norm_num) (by norm_num) (by norm_num)

end SlatePad
